import Mathlib

/-!
# Verification of `CTT-OMEGA-POINT.py` against its specification

Shallow embedding of the decay-and-threshold engine of
`src/CTT-OMEGA-POINT.py`.  Python floats are modelled as real numbers;
`int(x)` as truncation toward zero; a Python run-time exception
(`TypeError`) as an explicit error value that propagates like an uncaught
exception.  The wall clock (`time.time()`) is an explicit parameter: a
stream of integer microsecond samples.
-/

namespace CTTOmega

/-- `CTT_ALPHA = 0.0302011` — temporal dispersion coefficient (line 17). -/
noncomputable def CTT_ALPHA : ℝ := 0.0302011

/-- `CTT_LAYERS = 33` — number of temporal layers (line 18). -/
def CTT_LAYERS : ℕ := 33

/-- `CTT_SINGULARITY_THRESHOLD = np.exp(-CTT_ALPHA * 32)` — the layer-32
energy (line 19). -/
noncomputable def CTT_SINGULARITY_THRESHOLD : ℝ := Real.exp (-CTT_ALPHA * 32)

/-- Python `int(x)` applied to a float: truncation toward zero. -/
noncomputable def pyInt (x : ℝ) : ℤ := if 0 ≤ x then ⌊x⌋ else -⌊-x⌋

/-- The run-time errors a Python expression of this program can raise; the
only one that occurs is `TypeError` (a list indexed with a float). -/
inductive PyError where
  | typeError
deriving DecidableEq

/-- `theorem_4_2_energy_decay` (lines 46-51):
`self.energy * np.exp(-CTT_ALPHA * layer)`; `energy` is the object's
`self.energy` field (set to `1.0` in `__init__` and never reassigned). -/
noncomputable def theorem_4_2_energy_decay (energy : ℝ) (layer : ℕ) : ℝ :=
  energy * Real.exp (-CTT_ALPHA * layer)

/-- Modelled from the spec (§4.1), for comparison with the source's
`theorem_4_2_energy_decay`: the contract
`energy(initial, layer, coeff) = initial * exp(-coeff * layer)`. -/
noncomputable def spec_energy (initial : ℝ) (layer : ℕ) (coeff : ℝ) : ℝ :=
  initial * Real.exp (-coeff * layer)

/-- The prime list of `calculate_temporal_resonance` (line 62). -/
def primes : List ℕ := [10007, 10009, 10037]

/-- `primes[current_layer % len(primes)]` (line 63) for an integer layer. -/
def resonancePrime (current_layer : ℕ) : ℕ :=
  primes.get ⟨current_layer % primes.length, Nat.mod_lt _ (by decide)⟩

/-- `calculate_temporal_resonance` (lines 53-67) as invoked with an integer
layer (line 198): base delay `0.001 * exp(-CTT_ALPHA * layer)` perturbed by
the prime alignment `(microsecond % prime) / prime`, where `μ` is the
wall-clock sample `int(time.time() * 1e6)`. -/
noncomputable def calculate_temporal_resonance (current_layer : ℕ) (μ : ℕ) : ℝ :=
  let base_delay := 0.001 * Real.exp (-CTT_ALPHA * current_layer)
  let prime := resonancePrime current_layer
  let prime_alignment := ((μ % prime : ℕ) : ℝ) / prime
  base_delay * (1 + 0.1 * prime_alignment)

/-- `calculate_temporal_resonance` as invoked from the event loop
(line 81) with the Python float `layer + i/10`: the base delay is computed,
but `primes[current_layer % len(primes)]` (line 63) then indexes a list
with a float, which raises `TypeError` whatever the float's value is. -/
noncomputable def calculate_temporal_resonance_floatArg (current_layer : ℝ)
    (μ : ℕ) : Except PyError ℝ :=
  let _base_delay := 0.001 * Real.exp (-CTT_ALPHA * current_layer)
  Except.error PyError.typeError

/-- One simulated CQE record (lines 84-91). -/
structure CQE where
  layer : ℕ
  submission : ℕ
  energy : ℝ
  delay : ℝ
  temporal_phase : ℝ

/-- Lines 93-95: the temporal-pressure sample taken inside the event loop —
`pressure = layer_energy * completion_delay * 1000`, computed only when
`i % 10 == 0`. -/
noncomputable def pressureSample (layer_energy completion_delay : ℝ) (i : ℕ) :
    Option ℝ :=
  if i % 10 = 0 then some (layer_energy * completion_delay * 1000) else none

/-- `trigger_resonance_cascade` (lines 101-113): prints the pressure and
returns True exactly when
`pressure > CTT_SINGULARITY_THRESHOLD and not self.converged`; it assigns no
attribute, so it leaves the object state untouched and its return value is
discarded by its only caller (line 97). -/
noncomputable def trigger_resonance_cascade (layer : ℕ) (pressure : ℝ)
    (converged : Bool) : Bool :=
  if CTT_SINGULARITY_THRESHOLD < pressure ∧ converged = false then true
  else false

end CTTOmega

namespace CTTOmega

/-- The event loop of `simulate_io_uring_resonance` (lines 79-97) over the
remaining event indices: each event computes its completion delay by calling
`calculate_temporal_resonance(layer + i/10)` — a float argument, so the call
raises `TypeError`, which propagates (there is no `try` anywhere).  Were a
delay obtained, the CQE would be appended and, at every 10th index, the
pressure sampled and `trigger_resonance_cascade` invoked (result discarded). -/
noncomputable def simulateLoop (layer : ℕ) (layer_energy : ℝ) (μs : ℕ → ℕ)
    (converged : Bool) : List ℕ → List CQE → Except PyError (List CQE)
  | [], acc => Except.ok acc
  | i :: rest, acc =>
    match calculate_temporal_resonance_floatArg ((layer : ℝ) + (i : ℝ) / 10)
        (μs i) with
    | Except.error e => Except.error e
    | Except.ok completion_delay =>
      let cqe : CQE :=
        { layer := layer, submission := i, energy := layer_energy,
          delay := completion_delay,
          temporal_phase := Real.sin (2 * Real.pi * i / (1 / CTT_ALPHA)) }
      let _cascade :=
        (pressureSample layer_energy completion_delay i).map fun pressure =>
          if 0.1 < pressure then
            some (trigger_resonance_cascade layer pressure converged)
          else none
      simulateLoop layer layer_energy μs converged rest (acc ++ [cqe])

/-- The number of events of a layer's batch:
`range(int(layer_energy * 100))` (line 79) iterates
`int(layer_energy * 100)` times — never a negative count. -/
noncomputable def batchSize (energy : ℝ) (layer : ℕ) : ℕ :=
  (pyInt (theorem_4_2_energy_decay energy layer * 100)).toNat

/-- `simulate_io_uring_resonance` (lines 69-99): the batch has
`int(layer_energy * 100)` events (a `range` count, hence never negative);
`energy` is the object's `self.energy` field and `converged` its
`self.converged` flag (read, never written, inside the batch). -/
noncomputable def simulate_io_uring_resonance (energy : ℝ) (layer : ℕ)
    (μs : ℕ → ℕ) (converged : Bool) : Except PyError (List CQE) :=
  let layer_energy := theorem_4_2_energy_decay energy layer
  simulateLoop layer layer_energy μs converged
    (List.range (batchSize energy layer)) []

/-- `self.cred_targets.values()` in insertion order (lines 37-44). -/
def cred_targets : List ℕ := [4, 8, 12, 16, 20, 24]

/-- The four-byte group `craft_cred_overwrite_payload` builds per credential
offset (lines 127-144): `struct.pack('<I', 0)` gives four zero bytes, each is
XORed with the resonance pattern (`0xAA` when `(layer + offset) % 2 == 0`,
else `0x55`) and scaled by `int(byte * current_energy) & 0xFF`. -/
noncomputable def credGroup (layer : ℕ) (current_energy : ℝ) (offset : ℕ) :
    List ℤ :=
  let pattern : ℕ := if (layer + offset) % 2 = 0 then 0xAA else 0x55
  let zero_value : List ℕ := [0, 0, 0, 0]
  let transformed := zero_value.map fun b => b ^^^ pattern
  transformed.map fun b => Int.land (pyInt ((b : ℝ) * current_energy)) 0xFF

/-- `craft_cred_overwrite_payload` (lines 115-146): the payload is the
concatenation (`payload.extend`) of the six per-offset groups. -/
noncomputable def craft_cred_overwrite_payload (energy : ℝ) (layer : ℕ) :
    List ℤ :=
  let current_energy := theorem_4_2_energy_decay energy layer
  cred_targets.foldl (fun payload offset =>
    payload ++ credGroup layer current_energy offset) []

/-- `trigger_kernel_phase_transition` (lines 233-258): prints, sets
`transition_success = True` and returns True — the simulated transition
never fails. -/
def trigger_kernel_phase_transition (layer : ℕ) (payload : List ℤ) : Bool :=
  let transition_success := true
  if transition_success then true else false

end CTTOmega

namespace CTTOmega

/-- The object and loop-local state of `execute_temporal_singularity`
(lines 148-231): `self.energy` (never reassigned), `self.converged`, the
loop variable `phase_transition_triggered`, the accumulated
`all_completions`, plus the observables the claims are about: the layers the
loop entered (`processed`), the layers at which
`trigger_kernel_phase_transition` was invoked (`triggers`), whether the loop
executed `break` (`broke`), and whether an uncaught exception aborted the
method (`crashed`). -/
structure LoopState where
  energy : ℝ
  converged : Bool
  phase_transition_triggered : Bool
  all_completions : List CQE
  processed : List ℕ
  triggers : List ℕ
  broke : Bool
  crashed : Bool

/-- The state on entry to the layer loop for a fresh `CTT_OmegaPoint()` whose
`self.energy` is `energy` (`__init__` lines 31-34 sets `converged = False`;
lines 168-169 set `all_completions = []` and
`phase_transition_triggered = False`).  The program constructs the object
with `energy = 1.0` (line 32). -/
def initState (energy : ℝ) : LoopState :=
  { energy := energy, converged := false, phase_transition_triggered := false,
    all_completions := [], processed := [], triggers := [], broke := false,
    crashed := false }

/-- One iteration of the layer loop (lines 171-199) at layer `l`: a no-op
once the loop has broken or an exception has propagated; otherwise compute
the layer energy, run `simulate_io_uring_resonance` (line 179; an exception
there aborts the whole method), then — independently of any pressure
sample — test `layer_energy <= CTT_SINGULARITY_THRESHOLD and not
self.converged` (line 183).  When the test holds, craft the payload, invoke
`trigger_kernel_phase_transition`, and on its True result set
`self.converged` and break (lines 187-195).  The inter-layer
`time.sleep(calculate_temporal_resonance(layer))` (lines 198-199) changes no
state. -/
noncomputable def processLayer (μs : ℕ → ℕ) (s : LoopState) (l : ℕ) :
    LoopState :=
  if s.broke = true ∨ s.crashed = true then s
  else
    let layer_energy := theorem_4_2_energy_decay s.energy l
    let s1 := { s with processed := s.processed ++ [l] }
    match simulate_io_uring_resonance s.energy l μs s.converged with
    | Except.error _ => { s1 with crashed := true }
    | Except.ok completions =>
      let s2 := { s1 with all_completions := s1.all_completions ++ completions }
      if layer_energy ≤ CTT_SINGULARITY_THRESHOLD ∧ s2.converged = false then
        let payload := craft_cred_overwrite_payload s.energy l
        let ok := trigger_kernel_phase_transition l payload
        let s3 := { s2 with triggers := s2.triggers ++ [l],
                            phase_transition_triggered := ok }
        if ok = true then { s3 with converged := true, broke := true } else s3
      else s2

/-- `for layer in range(CTT_LAYERS)` (line 171), layers in ascending order. -/
noncomputable def runLayers (μs : ℕ → ℕ) : LoopState → List ℕ → LoopState
  | s, [] => s
  | s, l :: ls => runLayers μs (processLayer μs s l) ls

/-- What `execute_temporal_singularity` leaves behind: the final state, the
method's return value (line 231; `none` when the exception propagated), and
which of the two final reports was printed (lines 206-229: `some true` =
success report, `some false` = failure report, `none` = the exception
aborted the method before the analysis section). -/
structure RunResult where
  final : LoopState
  result : Option Bool
  report : Option Bool

/-- `execute_temporal_singularity` (lines 148-231): run the 33 layers, then
print exactly one of the two reports and return
`phase_transition_triggered` — unless an uncaught exception aborted the
method first, in which case nothing after the loop runs. -/
noncomputable def execute_temporal_singularity (μs : ℕ → ℕ) (s0 : LoopState) :
    RunResult :=
  let s := runLayers μs s0 (List.range CTT_LAYERS)
  if s.crashed = true then { final := s, result := none, report := none }
  else
    { final := s, result := some s.phase_transition_triggered,
      report := some s.phase_transition_triggered }

/-- The program's run (lines 293-303): construct `CTT_OmegaPoint()` and call
`execute_temporal_singularity`, generalized over the initial `self.energy`
field (the source sets it to `1.0`). -/
noncomputable def omega_run (μs : ℕ → ℕ) (energy : ℝ) : RunResult :=
  execute_temporal_singularity μs (initState energy)

end CTTOmega

namespace CTTOmega

/-! ## Basic facts about the constants and the decay function -/

theorem CTT_ALPHA_pos : 0 < CTT_ALPHA := by norm_num [CTT_ALPHA]

theorem threshold_pos : 0 < CTT_SINGULARITY_THRESHOLD :=
  Real.exp_pos _

theorem decay_zero (energy : ℝ) : theorem_4_2_energy_decay energy 0 = energy := by
  simp [theorem_4_2_energy_decay]

/-! ## Claim theorems: the pure functions -/

/-- C3: the energy function computes `initial * exp(-coeff * layer)` with the
module coefficient `CTT_ALPHA`, and at layer 0 returns the initial energy. -/
theorem c3_energy_contract (initial : ℝ) (layer : ℕ) :
    theorem_4_2_energy_decay initial layer = spec_energy initial layer CTT_ALPHA ∧
    theorem_4_2_energy_decay initial 0 = initial :=
  ⟨rfl, decay_zero initial⟩

/-- C4: for a positive coefficient and positive initial energy the energy
function is strictly decreasing in the layer index — both for the spec-level
contract `spec_energy` at any positive coefficient and for the source's
`theorem_4_2_energy_decay` (whose coefficient is `CTT_ALPHA > 0`). -/
theorem c4_energy_strict_decrease (initial coeff : ℝ) (hinit : 0 < initial)
    (hcoeff : 0 < coeff) (layer : ℕ) (hlayer : 0 < layer) :
    spec_energy initial layer coeff < spec_energy initial (layer - 1) coeff ∧
    theorem_4_2_energy_decay initial layer <
      theorem_4_2_energy_decay initial (layer - 1) := by
  have hcast : ((layer - 1 : ℕ) : ℝ) < (layer : ℝ) := by
    have h1 : (layer - 1 : ℕ) < layer := Nat.sub_lt hlayer Nat.one_pos
    exact_mod_cast h1
  constructor
  · apply mul_lt_mul_of_pos_left _ hinit
    apply Real.exp_lt_exp.mpr
    have := mul_lt_mul_of_pos_left hcast hcoeff
    linarith
  · apply mul_lt_mul_of_pos_left _ hinit
    apply Real.exp_lt_exp.mpr
    have := mul_lt_mul_of_pos_left hcast CTT_ALPHA_pos
    linarith

/-- Witness for C4 at `initial = 1`, `coeff = 1`, `layer = 1`. -/
theorem c4_energy_strict_decrease_witness :
    (0:ℝ) < 1 ∧ (0:ℝ) < 1 ∧ 0 < 1 ∧
      (spec_energy 1 1 1 < spec_energy 1 0 1 ∧
       theorem_4_2_energy_decay 1 1 < theorem_4_2_energy_decay 1 0) :=
  ⟨one_pos, one_pos, Nat.one_pos,
    c4_energy_strict_decrease 1 1 one_pos one_pos 1 Nat.one_pos⟩

/-- The chosen prime is one of the three list entries, hence positive. -/
theorem resonancePrime_pos (l : ℕ) : 0 < resonancePrime l := by
  have h : l % 3 = 0 ∨ l % 3 = 1 ∨ l % 3 = 2 := by omega
  rcases h with h | h | h <;>
    simp [resonancePrime, primes, h]

/-- C7: the resonance delay is never negative and is at most `1.1` times the
base delay `0.001 * exp(-CTT_ALPHA * layer)`. -/
theorem c7_resonance_delay_bounds (current_layer μ : ℕ) :
    0 ≤ calculate_temporal_resonance current_layer μ ∧
    calculate_temporal_resonance current_layer μ ≤
      1.1 * (0.001 * Real.exp (-CTT_ALPHA * current_layer)) := by
  have hp : 0 < resonancePrime current_layer := resonancePrime_pos current_layer
  have hpR : (0:ℝ) < (resonancePrime current_layer : ℝ) := by exact_mod_cast hp
  have hbase : 0 < 0.001 * Real.exp (-CTT_ALPHA * current_layer) := by
    positivity
  have halign0 : 0 ≤ ((μ % resonancePrime current_layer : ℕ) : ℝ) /
      (resonancePrime current_layer : ℝ) := by positivity
  have halign1 : ((μ % resonancePrime current_layer : ℕ) : ℝ) /
      (resonancePrime current_layer : ℝ) ≤ 1 := by
    rw [div_le_one hpR]
    exact_mod_cast (Nat.mod_lt μ hp).le
  unfold calculate_temporal_resonance
  constructor
  · have : (0:ℝ) ≤ 1 + 0.1 * (((μ % resonancePrime current_layer : ℕ) : ℝ) /
        (resonancePrime current_layer : ℝ)) := by nlinarith
    exact mul_nonneg hbase.le this
  · have h11 : 1 + 0.1 * (((μ % resonancePrime current_layer : ℕ) : ℝ) /
        (resonancePrime current_layer : ℝ)) ≤ 1.1 := by nlinarith
    calc 0.001 * Real.exp (-CTT_ALPHA * current_layer) *
        (1 + 0.1 * (((μ % resonancePrime current_layer : ℕ) : ℝ) /
          (resonancePrime current_layer : ℝ)))
      ≤ 0.001 * Real.exp (-CTT_ALPHA * current_layer) * 1.1 :=
        mul_le_mul_of_nonneg_left h11 hbase.le
    _ = 1.1 * (0.001 * Real.exp (-CTT_ALPHA * current_layer)) := by ring

end CTTOmega

namespace CTTOmega

/-! ## The event batch: every nonempty batch raises `TypeError` -/

theorem floatArg_error (x : ℝ) (μ : ℕ) :
    calculate_temporal_resonance_floatArg x μ = Except.error PyError.typeError :=
  rfl

theorem simulateLoop_cons (layer : ℕ) (e : ℝ) (μs : ℕ → ℕ) (c : Bool)
    (i : ℕ) (rest : List ℕ) (acc : List CQE) :
    simulateLoop layer e μs c (i :: rest) acc =
      Except.error PyError.typeError := by
  simp [simulateLoop, calculate_temporal_resonance_floatArg]

theorem simulate_err (energy : ℝ) (layer : ℕ) (μs : ℕ → ℕ) (c : Bool)
    (h : 0 < batchSize energy layer) :
    simulate_io_uring_resonance energy layer μs c =
      Except.error PyError.typeError := by
  obtain ⟨m, hm⟩ : ∃ m, batchSize energy layer = m + 1 :=
    ⟨batchSize energy layer - 1, (Nat.succ_pred_eq_of_pos h).symm⟩
  simp only [simulate_io_uring_resonance, hm, List.range_succ_eq_map]
  exact simulateLoop_cons _ _ _ _ _ _ _

theorem simulate_empty (energy : ℝ) (layer : ℕ) (μs : ℕ → ℕ) (c : Bool)
    (h : batchSize energy layer = 0) :
    simulate_io_uring_resonance energy layer μs c = Except.ok [] := by
  simp [simulate_io_uring_resonance, h, simulateLoop]

theorem batchSize_one_zero : batchSize 1 0 = 100 := by
  have h : theorem_4_2_energy_decay 1 0 * 100 = (100 : ℝ) := by
    rw [decay_zero]; norm_num
  rw [batchSize, h, pyInt, if_pos (by norm_num : (0:ℝ) ≤ 100)]
  norm_num
  rfl

theorem batchSize_two_zero : batchSize 2 0 = 200 := by
  have h : theorem_4_2_energy_decay 2 0 * 100 = (200 : ℝ) := by
    rw [decay_zero]; norm_num
  rw [batchSize, h, pyInt, if_pos (by norm_num : (0:ℝ) ≤ 200)]
  norm_num
  rfl

/-! ## The layer loop: frozen states and the crash at layer 0 -/

theorem processLayer_frozen (μs : ℕ → ℕ) (s : LoopState) (l : ℕ)
    (h : s.broke = true ∨ s.crashed = true) :
    processLayer μs s l = s := by
  unfold processLayer
  rw [if_pos h]

theorem runLayers_frozen (μs : ℕ → ℕ) (ls : List ℕ) (s : LoopState)
    (h : s.broke = true ∨ s.crashed = true) :
    runLayers μs s ls = s := by
  induction ls with
  | nil => rfl
  | cons l ls ih =>
    show runLayers μs (processLayer μs s l) ls = s
    rw [processLayer_frozen μs s l h]
    exact ih

theorem processLayer_crash (μs : ℕ → ℕ) (s : LoopState) (l : ℕ)
    (hguard : ¬(s.broke = true ∨ s.crashed = true))
    (hbatch : 0 < batchSize s.energy l) :
    processLayer μs s l =
      { s with processed := s.processed ++ [l], crashed := true } := by
  have hsim := simulate_err s.energy l μs s.converged hbatch
  unfold processLayer
  rw [if_neg hguard, hsim]

theorem runLayers_crash_zero (μs : ℕ → ℕ) (e : ℝ)
    (hbatch : 0 < batchSize e 0) :
    runLayers μs (initState e) (List.range CTT_LAYERS) =
      { initState e with processed := [0], crashed := true } := by
  have h33 : List.range CTT_LAYERS = 0 :: List.map Nat.succ (List.range 32) := by
    rw [show CTT_LAYERS = 32 + 1 from rfl, List.range_succ_eq_map]
  rw [h33]
  show runLayers μs (processLayer μs (initState e) 0) _ = _
  rw [processLayer_crash μs (initState e) 0 (by simp [initState]) hbatch]
  exact runLayers_frozen _ _ _ (Or.inr rfl)

/-! ## Energy-versus-threshold arithmetic -/

theorem decay_one_lt_threshold (l : ℕ) (h : l < 32) :
    CTT_SINGULARITY_THRESHOLD < theorem_4_2_energy_decay 1 l := by
  rw [theorem_4_2_energy_decay, CTT_SINGULARITY_THRESHOLD, one_mul]
  apply Real.exp_lt_exp.mpr
  have hl : (l : ℝ) < 32 := by exact_mod_cast h
  nlinarith [CTT_ALPHA_pos]

theorem decay_one_32_le_threshold :
    theorem_4_2_energy_decay 1 32 ≤ CTT_SINGULARITY_THRESHOLD := by
  apply le_of_eq
  rw [theorem_4_2_energy_decay, CTT_SINGULARITY_THRESHOLD, one_mul]
  norm_num

theorem decay_two_gt_threshold (l : ℕ) (h : l < CTT_LAYERS) :
    CTT_SINGULARITY_THRESHOLD < theorem_4_2_energy_decay 2 l := by
  rw [theorem_4_2_energy_decay, CTT_SINGULARITY_THRESHOLD]
  have hl : (l : ℝ) ≤ 32 := by
    have : l ≤ 32 := by
      have := h; unfold CTT_LAYERS at this; omega
    exact_mod_cast this
  have hexp : Real.exp (-CTT_ALPHA * 32) ≤ Real.exp (-CTT_ALPHA * l) := by
    apply Real.exp_le_exp.mpr
    nlinarith [CTT_ALPHA_pos]
  nlinarith [Real.exp_pos (-CTT_ALPHA * (l : ℝ))]

/-! ## Claim theorems: the end-to-end run -/

/-- C6 (code bug, evaluated at the failing input): at layer 0 of the
constructed object (`self.energy = 1.0`) the batch count
`int(energy(0) * 100)` is 100, yet `simulate_io_uring_resonance` produces no
batch — it raises `TypeError` at its first event (the float `layer + i/10`
used as a list index); a batch value is returned only when the count is 0,
and then it is the empty batch. -/
theorem c6_batch_generation_raises :
    batchSize 1 0 = 100 ∧
    (∀ (μs : ℕ → ℕ) (c : Bool),
      simulate_io_uring_resonance 1 0 μs c = Except.error PyError.typeError) ∧
    (∀ (e : ℝ) (l : ℕ) (μs : ℕ → ℕ) (c : Bool), batchSize e l = 0 →
      simulate_io_uring_resonance e l μs c = Except.ok []) := by
  refine ⟨batchSize_one_zero, fun μs c => ?_, fun e l μs c h => simulate_empty e l μs c h⟩
  exact simulate_err 1 0 μs c (by rw [batchSize_one_zero]; norm_num)

/-- C2 (code bug, evaluated at the failing input): with the source constants
the energy indeed first reaches the threshold at layer 32 (the first two
conjuncts — the claim's arithmetic is right), but the run itself raises
`TypeError` during layer 0's event batch: the loop processes only layer 0,
never converges, never triggers, and the method returns nothing. -/
theorem c2_default_run_aborts_at_layer_zero :
    (∀ l : ℕ, l < 32 → CTT_SINGULARITY_THRESHOLD < theorem_4_2_energy_decay 1 l) ∧
    theorem_4_2_energy_decay 1 32 ≤ CTT_SINGULARITY_THRESHOLD ∧
    (∀ μs : ℕ → ℕ,
      (omega_run μs 1).final.crashed = true ∧
      (omega_run μs 1).final.converged = false ∧
      (omega_run μs 1).final.processed = [0] ∧
      (omega_run μs 1).final.triggers = [] ∧
      (omega_run μs 1).result = none) := by
  refine ⟨decay_one_lt_threshold, decay_one_32_le_threshold, fun μs => ?_⟩
  have hrun := runLayers_crash_zero μs 1 (by rw [batchSize_one_zero]; norm_num)
  simp only [omega_run, execute_temporal_singularity, hrun]
  simp [initState]

/-- C8 (code bug, evaluated at the failing input): with `self.energy = 2.0`
no layer's energy is at or below the threshold (first conjunct), so the
claim calls for the loop to finish all 33 layers and emit the failure
report; instead the run raises `TypeError` at layer 0 — the flag stays
false and the trigger is indeed never invoked, but no further layer is
processed and neither report is printed. -/
theorem c8_exhaustion_emits_no_report :
    (∀ l : ℕ, l < CTT_LAYERS → CTT_SINGULARITY_THRESHOLD < theorem_4_2_energy_decay 2 l) ∧
    (∀ μs : ℕ → ℕ,
      (omega_run μs 2).final.converged = false ∧
      (omega_run μs 2).final.triggers = [] ∧
      (omega_run μs 2).final.processed = [0] ∧
      (omega_run μs 2).report = none) := by
  refine ⟨decay_two_gt_threshold, fun μs => ?_⟩
  have hrun := runLayers_crash_zero μs 2 (by rw [batchSize_two_zero]; norm_num)
  simp only [omega_run, execute_temporal_singularity, hrun]
  simp [initState]

/-- C9 (code bug, evaluated at the failing input): the terminal trigger
action does return True for every layer and payload (first conjunct — that
half of the claim is right), and in the default run layer 32's energy is at
or below the threshold (second conjunct), yet the run does not end converged
with result True: it raises `TypeError` at layer 0 and ends with no result
at all. -/
theorem c9_trigger_true_but_run_never_converges :
    (∀ (l : ℕ) (payload : List ℤ),
      trigger_kernel_phase_transition l payload = true) ∧
    theorem_4_2_energy_decay 1 32 ≤ CTT_SINGULARITY_THRESHOLD ∧
    (∀ μs : ℕ → ℕ,
      (omega_run μs 1).result = none ∧
      (omega_run μs 1).final.converged = false) := by
  refine ⟨fun l payload => rfl, decay_one_32_le_threshold, fun μs => ?_⟩
  have hrun := runLayers_crash_zero μs 1 (by rw [batchSize_one_zero]; norm_num)
  simp only [omega_run, execute_temporal_singularity, hrun]
  simp [initState]

/-! ## The one-shot convergence discipline -/

/-- The invariant of the layer loop: either no trigger has fired yet — no
recorded trigger, flag false, `phase_transition_triggered` false, no break,
and (unless an exception already ended the run) every processed layer's
energy was above the threshold — or exactly one trigger has fired, at a
layer `L` at or below the threshold, with the flag set, the loop broken,
every processed layer `≤ L` and every strictly earlier one above the
threshold. -/
def FlagInv (e : ℝ) (s : LoopState) : Prop :=
  s.energy = e ∧
  ((s.triggers = [] ∧ s.converged = false ∧
      s.phase_transition_triggered = false ∧ s.broke = false ∧
      (s.crashed = true ∨ ∀ l ∈ s.processed,
        ¬theorem_4_2_energy_decay e l ≤ CTT_SINGULARITY_THRESHOLD)) ∨
   (∃ L, s.triggers = [L] ∧ s.converged = true ∧
      s.phase_transition_triggered = true ∧ s.broke = true ∧
      s.crashed = false ∧
      theorem_4_2_energy_decay e L ≤ CTT_SINGULARITY_THRESHOLD ∧
      L ∈ s.processed ∧ (∀ l ∈ s.processed, l ≤ L) ∧
      (∀ l ∈ s.processed, l < L →
        ¬theorem_4_2_energy_decay e l ≤ CTT_SINGULARITY_THRESHOLD)))

theorem FlagInv_step (μs : ℕ → ℕ) (e : ℝ) (s : LoopState) (l : ℕ)
    (h : FlagInv e s) (horder : ∀ x ∈ s.processed, x < l) :
    FlagInv e (processLayer μs s l) := by
  obtain ⟨he, hcase⟩ := h
  by_cases hguard : s.broke = true ∨ s.crashed = true
  · rw [processLayer_frozen μs s l hguard]
    exact ⟨he, hcase⟩
  · have hbroke : s.broke = false := by
      cases hb : s.broke with
      | false => rfl
      | true => exact absurd (Or.inl hb) hguard
    have hcrash : s.crashed = false := by
      cases hb : s.crashed with
      | false => rfl
      | true => exact absurd (Or.inr hb) hguard
    rcases hcase with ⟨ht, hcv, hpt, _, hinfo⟩ |
      ⟨L, _, _, _, hLbroke, _, _, _, _, _⟩
    · have hinfo2 : ∀ x ∈ s.processed,
          ¬theorem_4_2_energy_decay e x ≤ CTT_SINGULARITY_THRESHOLD := by
        rcases hinfo with hc | hi
        · rw [hc] at hcrash; cases hcrash
        · exact hi
      unfold processLayer
      rw [if_neg hguard]
      split
      · -- the batch raised: the run is aborted, nothing else changed
        exact ⟨he, Or.inl ⟨ht, hcv, hpt, hbroke, Or.inl rfl⟩⟩
      · -- the batch returned: the threshold test decides everything
        rename_i completions heq
        by_cases hth : theorem_4_2_energy_decay s.energy l ≤
            CTT_SINGULARITY_THRESHOLD ∧ s.converged = false
        · rw [if_pos hth]
          simp only [trigger_kernel_phase_transition, if_pos rfl]
          refine ⟨he, Or.inr ⟨l, by simp [ht], rfl, rfl, rfl, hcrash, ?_, ?_, ?_, ?_⟩⟩
          · rw [← he]; exact hth.1
          · simp
          · intro x hx
            rcases List.mem_append.mp hx with hx | hx
            · exact (horder x hx).le
            · simp only [List.mem_singleton] at hx; omega
          · intro x hx hxl
            rcases List.mem_append.mp hx with hx | hx
            · exact hinfo2 x hx
            · simp only [List.mem_singleton] at hx; omega
        · rw [if_neg hth]
          have hth2 : ¬theorem_4_2_energy_decay e l ≤ CTT_SINGULARITY_THRESHOLD := by
            rw [he] at hth
            intro hle
            exact hth ⟨hle, hcv⟩
          refine ⟨he, Or.inl ⟨ht, hcv, hpt, hbroke, Or.inr ?_⟩⟩
          intro x hx
          rcases List.mem_append.mp hx with hx | hx
          · exact hinfo2 x hx
          · simp only [List.mem_singleton] at hx
            rw [hx]; exact hth2
    · rw [hLbroke] at hbroke; cases hbroke

theorem FlagInv_run (μs : ℕ → ℕ) (e : ℝ) (ls : List ℕ) (s : LoopState)
    (h : FlagInv e s) (hsorted : List.Pairwise (· < ·) ls)
    (horder : ∀ x ∈ s.processed, ∀ l2 ∈ ls, x < l2) :
    FlagInv e (runLayers μs s ls) := by
  induction ls generalizing s with
  | nil => exact h
  | cons l ls ih =>
    obtain ⟨hhead, htail⟩ := List.pairwise_cons.mp hsorted
    show FlagInv e (runLayers μs (processLayer μs s l) ls)
    have hsub : ∀ x ∈ (processLayer μs s l).processed,
        x ∈ s.processed ∨ x = l := by
      intro x hx
      unfold processLayer at hx
      by_cases hguard : s.broke = true ∨ s.crashed = true
      · rw [if_pos hguard] at hx; exact Or.inl hx
      · rw [if_neg hguard] at hx
        revert hx
        split
        · intro hx
          simp only [List.mem_append, List.mem_singleton] at hx
          exact hx
        · by_cases hth : theorem_4_2_energy_decay s.energy l ≤
              CTT_SINGULARITY_THRESHOLD ∧ s.converged = false
          · rw [if_pos hth]
            intro hx
            rw [apply_ite LoopState.processed] at hx
            dsimp only at hx
            rw [ite_self] at hx
            simp only [List.mem_append, List.mem_singleton] at hx
            exact hx
          · rw [if_neg hth]
            intro hx
            simp only [List.mem_append, List.mem_singleton] at hx
            exact hx
    apply ih _ (FlagInv_step μs e s l h
      (fun x hx => horder x hx l (List.mem_cons_self l ls))) htail
    intro x hx l2 hl2
    rcases hsub x hx with hx2 | hx2
    · exact horder x hx2 l2 (List.mem_cons_of_mem l hl2)
    · rw [hx2]; exact hhead l2 hl2

/-- C1: in every run of the layer loop — any initial `self.energy`, any
clock stream, flag initially false — the convergence flag transitions
false→true at most once: `trigger_kernel_phase_transition` is invoked at
most once, the flag ends true exactly when it was invoked, and when it was
invoked at a layer `L`, that layer's energy is at or below the threshold,
the loop broke (so no later layer is processed: every processed layer is
`≤ L`), and every strictly earlier processed layer was above the
threshold; conversely, when the run did not crash and the trigger never
fired, every processed layer was above the threshold (the trigger is never
skipped at a qualifying layer). -/
theorem c1_convergence_one_shot (μs : ℕ → ℕ) (e : ℝ) :
    (omega_run μs e).final.triggers.length ≤ 1 ∧
    ((omega_run μs e).final.converged = true ↔
      (omega_run μs e).final.triggers ≠ []) ∧
    (∀ L, (omega_run μs e).final.triggers = [L] →
      theorem_4_2_energy_decay e L ≤ CTT_SINGULARITY_THRESHOLD ∧
      (omega_run μs e).final.broke = true ∧
      (∀ l ∈ (omega_run μs e).final.processed, l ≤ L) ∧
      (∀ l ∈ (omega_run μs e).final.processed, l < L →
        ¬theorem_4_2_energy_decay e l ≤ CTT_SINGULARITY_THRESHOLD)) ∧
    ((omega_run μs e).final.crashed = false →
      (omega_run μs e).final.triggers = [] →
      ∀ l ∈ (omega_run μs e).final.processed,
        ¬theorem_4_2_energy_decay e l ≤ CTT_SINGULARITY_THRESHOLD) := by
  have hfinal : (omega_run μs e).final =
      runLayers μs (initState e) (List.range CTT_LAYERS) := by
    simp only [omega_run, execute_temporal_singularity]
    split <;> rfl
  have hinv : FlagInv e (runLayers μs (initState e) (List.range CTT_LAYERS)) := by
    apply FlagInv_run
    · exact ⟨rfl, Or.inl ⟨rfl, rfl, rfl, rfl, Or.inr (by simp [initState])⟩⟩
    · exact List.pairwise_lt_range _
    · simp [initState]
  rw [hfinal]
  obtain ⟨_, hc⟩ := hinv
  rcases hc with ⟨h1, h2, _, _, hinfo⟩ | ⟨L, h1, h2, _, h4, _, h6, _, h8, h9⟩
  · refine ⟨by simp [h1], by simp [h1, h2],
      fun L2 hL2 => absurd hL2 (by simp [h1]), fun hcr _ l hl => ?_⟩
    rcases hinfo with hcrash | hi
    · rw [hcrash] at hcr; cases hcr
    · exact hi l hl
  · refine ⟨by simp [h1], by simp [h1, h2], fun L2 hL2 => ?_, fun _ htr => ?_⟩
    · have hLL : L = L2 := by
        rw [h1] at hL2
        exact (List.cons.injEq L [] L2 []).mp hL2 |>.1
      rw [← hLL]
      exact ⟨h6, h4, h8, h9⟩
    · rw [h1] at htr; cases htr

/-! ## Pressure sampling is advisory only -/

/-- C5: the pressure metric `layer_energy * completion_delay * 1000` is
computed only at every 10th event index (the guard `i % 10 == 0`), and a
positive sample never drives convergence: `trigger_resonance_cascade` only
returns a Bool that its caller discards, and after any layer iteration the
convergence flag is true exactly when it already was true or the layer's
batch completed and that layer's energy was at or below the threshold — the
direct energy-versus-threshold comparison alone decides convergence. -/
theorem c5_pressure_advisory_only :
    (∀ (e d : ℝ) (i : ℕ), i % 10 ≠ 0 → pressureSample e d i = none) ∧
    (∀ (e d : ℝ) (i : ℕ), i % 10 = 0 →
      pressureSample e d i = some (e * d * 1000)) ∧
    (∀ (μs : ℕ → ℕ) (s : LoopState) (l : ℕ),
      ((processLayer μs s l).converged = true ↔
        (s.converged = true ∨
         (s.broke = false ∧ s.crashed = false ∧
          (∃ cs, simulate_io_uring_resonance s.energy l μs s.converged =
            Except.ok cs) ∧
          theorem_4_2_energy_decay s.energy l ≤ CTT_SINGULARITY_THRESHOLD)))) := by
  refine ⟨fun e d i h => by simp [pressureSample, h],
          fun e d i h => by simp [pressureSample, h],
          fun μs s l => ?_⟩
  by_cases hguard : s.broke = true ∨ s.crashed = true
  · rw [processLayer_frozen μs s l hguard]
    constructor
    · exact fun h => Or.inl h
    · rintro (h | ⟨hb, hc, _, _⟩)
      · exact h
      · rcases hguard with hg | hg
        · rw [hb] at hg; cases hg
        · rw [hc] at hg; cases hg
  · have hbroke : s.broke = false := by
      cases hb : s.broke with
      | false => rfl
      | true => exact absurd (Or.inl hb) hguard
    have hcrash : s.crashed = false := by
      cases hb : s.crashed with
      | false => rfl
      | true => exact absurd (Or.inr hb) hguard
    unfold processLayer
    rw [if_neg hguard]
    split
    · rename_i heq
      dsimp only
      constructor
      · exact fun h => Or.inl h
      · rintro (h | ⟨_, _, ⟨cs, hcs⟩, _⟩)
        · exact h
        · rw [heq] at hcs; cases hcs
    · rename_i cs heq
      by_cases hth : theorem_4_2_energy_decay s.energy l ≤
          CTT_SINGULARITY_THRESHOLD ∧ s.converged = false
      · rw [if_pos hth]
        simp only [trigger_kernel_phase_transition, if_pos rfl]
        constructor
        · intro _
          exact Or.inr ⟨hbroke, hcrash, ⟨cs, heq⟩, hth.1⟩
        · intro _
          rfl
      · rw [if_neg hth]
        dsimp only
        constructor
        · exact fun h => Or.inl h
        · rintro (h | ⟨_, _, _, hle⟩)
          · exact h
          · cases hc : s.converged with
            | true => rfl
            | false => exact absurd ⟨hle, hc⟩ hth

/-! ## The payload bytes -/

/-- The resonance pattern of `craft_cred_overwrite_payload` (line 135):
`0xAA` when `(layer + offset) % 2 == 0`, else `0x55`. -/
def credPattern (layer offset : ℕ) : ℕ :=
  if (layer + offset) % 2 = 0 then 0xAA else 0x55

theorem credGroup_eq (layer : ℕ) (e : ℝ) (offset : ℕ) :
    credGroup layer e offset =
      List.replicate 4
        (Int.land (pyInt ((credPattern layer offset : ℝ) * e)) 0xFF) := by
  by_cases h : (layer + offset) % 2 = 0 <;>
    simp [credGroup, credPattern, h, List.replicate]

/-- C10: the payload has exactly 24 bytes — four per credential offset, in
the order `uid, gid, suid, sgid, euid, egid` — and since `0 XOR pattern =
pattern`, every byte of the offset's group is
`int(pattern * energy(layer)) & 0xFF` with the pattern `0xAA` when
`(layer + offset)` is even and `0x55` otherwise; at the constructed object
(`self.energy = 1.0`) and layer 0 every offset is even, so the payload is 24
copies of `0xAA = 170`. -/
theorem c10_payload_bytes (energy : ℝ) (layer : ℕ) :
    (craft_cred_overwrite_payload energy layer).length = 24 ∧
    craft_cred_overwrite_payload energy layer =
      (cred_targets.map fun offset =>
        List.replicate 4
          (Int.land (pyInt ((credPattern layer offset : ℝ) *
            theorem_4_2_energy_decay energy layer)) 0xFF)).foldl (· ++ ·) [] ∧
    craft_cred_overwrite_payload 1 0 = List.replicate 24 (170 : ℤ) := by
  have hjoin : ∀ (e2 : ℝ) (l2 : ℕ), craft_cred_overwrite_payload e2 l2 =
      (cred_targets.map fun offset =>
        List.replicate 4
          (Int.land (pyInt ((credPattern l2 offset : ℝ) *
            theorem_4_2_energy_decay e2 l2)) 0xFF)).foldl (· ++ ·) [] := by
    intro e2 l2
    simp [craft_cred_overwrite_payload, cred_targets, credGroup_eq]
  refine ⟨?_, hjoin energy layer, ?_⟩
  · rw [hjoin]
    simp [cred_targets]
  · rw [hjoin]
    have hbyte : Int.land (pyInt ((170 : ℝ) *
        theorem_4_2_energy_decay 1 0)) 0xFF = 170 := by
      rw [decay_zero]
      have h170 : pyInt ((170 : ℝ) * 1) = 170 := by
        rw [pyInt, if_pos (by norm_num : (0:ℝ) ≤ 170 * 1)]
        norm_num
      rw [h170]
      decide
    have hpat : ∀ offset ∈ cred_targets, credPattern 0 offset = 170 := by
      intro offset hoff
      fin_cases hoff <;> rfl
    simp only [cred_targets, List.map_cons, List.map_nil] at *
    rw [hpat 4 (by simp), hpat 8 (by simp), hpat 12 (by simp),
      hpat 16 (by simp), hpat 20 (by simp), hpat 24 (by simp)]
    push_cast
    rw [hbyte]
    rfl
